import Mathlib

/-!
Verification of the SMS spam-detection repository
(`app/streamlit_app.py` and `scripts/train_model.py`).

The two Python files are glue around sklearn / pandas / streamlit calls.
The repository code itself (text handling, branch structure, file checks,
index resolution, hyperparameter configuration) is embedded directly; the
behaviour of the external libraries the code calls (sklearn's classifier
API, pandas CSV parsing, streamlit's resource cache) is modelled from the
specification, with doc comments marking each modelled definition.
-/

namespace SpamDetect

/-! ## Text primitives (Python string operations on `List Char`) -/

/-- Python `str.strip()`: remove leading and trailing whitespace. -/
def pyStrip (s : String) : String :=
  ⟨((s.data.dropWhile Char.isWhitespace).reverse.dropWhile Char.isWhitespace).reverse⟩

/-- A word character in sklearn's default token pattern `(?u)\b\w\w+\b`. -/
def isWordChar (c : Char) : Bool := c.isAlphanum || c == '_'

/-- Maximal runs of word characters (the accumulator holds the current run
reversed). -/
def wordRuns (acc : List Char) : List Char → List (List Char)
  | [] => if acc.isEmpty then [] else [acc.reverse]
  | c :: cs =>
    if isWordChar c then wordRuns (c :: acc) cs
    else if acc.isEmpty then wordRuns [] cs else acc.reverse :: wordRuns [] cs

/-- Modelled from the spec: sklearn `TfidfVectorizer`'s default analyzer —
lowercase the text and keep maximal word-character runs of length at least
two as tokens. -/
def tokenize (s : String) : List String :=
  ((wordRuns [] (s.data.map Char.toLower)).filter (fun w => 2 ≤ w.length)).map
    (fun w => ⟨w⟩)

/-- Adjacent token pairs, joined by a space (sklearn 2-gram convention). -/
def bigrams : List String → List String
  | a :: b :: rest => (a ++ " " ++ b) :: bigrams (b :: rest)
  | _ => []

/-- All terms the vectorizer extracts from one document under
`ngram_range=(1, 2)`: unigrams followed by bigrams. -/
def ngrams12 (s : String) : List String := tokenize s ++ bigrams (tokenize s)

/-! ## The classifier model (sklearn API surface used by the app) -/

/-- Modelled from the spec: a rational surrogate for the logistic sigmoid.
It shares the structural properties the app relies on: values strictly
between 0 and 1, value 1/2 exactly at score 0, strictly increasing, and
`squash (-s) = 1 - squash s`. -/
def squash (s : ℚ) : ℚ := 1 / 2 + s / (2 * (1 + |s|))

/-- A fitted pipeline artifact as the app consumes it: the class list
(sklearn `classes_`), the frozen vocabulary, and the decision score on raw
text. -/
structure Model where
  classes : List String
  vocabulary : List String
  score : String → ℚ

/-- Modelled from the spec: the probability the fitted classifier assigns
to the "spam" class for one message. -/
def Model.spamProb (m : Model) (t : String) : ℚ := squash (m.score t)

/-- Modelled from the spec: sklearn `predict` for the binary spam/ham
classifier — the class whose probability exceeds 1/2, "ham" on a tie
(decision score 0). -/
def Model.predict (m : Model) (t : String) : String :=
  if 1 / 2 < m.spamProb t then "spam" else "ham"

/-- Modelled from the spec: sklearn `predict_proba` — one probability per
entry of `classes_`, the spam slot holding the spam probability and the
other slot its complement. -/
def Model.predictProba (m : Model) (t : String) : List ℚ :=
  m.classes.map (fun c => if c = "spam" then m.spamProb t else 1 - m.spamProb t)

/-! ## The predict-button handler (streamlit_app.py lines 100-128) -/

/-- What the handler displays: either the warning branch
(`st.warning("Please enter a message")`) or a result with the printed
label, the displayed confidence, and the spam probability driving the
progress bar. -/
inductive SubmitResult where
  | noInput : SubmitResult
  | shown (label : String) (confidence : ℚ) (spamProb : ℚ) : SubmitResult
deriving DecidableEq

/-- `spam_idx = classes.index('spam') if 'spam' in classes else 1`
(streamlit_app.py line 109). -/
def spamIdxOf (classes : List String) : ℕ :=
  if "spam" ∈ classes then classes.indexOf "spam" else 1

/-- The predict-button handler (streamlit_app.py lines 100-128): on
`if text and text.strip():` it calls `model.predict` and
`model.predict_proba`, resolves the spam slot from `model.classes_`, and
shows the SPAM branch (confidence = spam probability) or the HAM branch
(confidence = 1 - spam probability); otherwise it warns about the missing
message. -/
def handleSubmit (model : Model) (text : String) : SubmitResult :=
  if text ≠ "" ∧ pyStrip text ≠ "" then
    let prediction := model.predict text
    let proba := model.predictProba text
    let spamIdx := spamIdxOf model.classes
    let spamProb := proba.getD spamIdx 0
    if prediction = "spam" then SubmitResult.shown "spam" spamProb spamProb
    else SubmitResult.shown "ham" (1 - spamProb) spamProb
  else SubmitResult.noInput

/-- A concrete artifact for evaluating the handler on closed inputs. -/
def modelW : Model := ⟨["ham", "spam"], [], fun _ => 1⟩

/-! ## Dataset rows and the training procedure
(scripts/train_model.py lines 14-41, app/streamlit_app.py lines 31-57;
the pipeline construction is identical in the two files) -/

/-- One labeled dataset row, as produced by
`pd.read_csv(..., names=['label', 'text'])`. -/
structure Example where
  label : String
  text : String
deriving DecidableEq

/-- The rows of `df` carrying a given label. -/
def classGroup (d : List Example) (l : String) : List Example :=
  d.filter (fun e => e.label == l)

/-- How many rows of `df` carry a given label. -/
def countLabel (d : List Example) (l : String) : ℕ := (classGroup d l).length

/-- The distinct label values of the dataset. -/
def labelsOf (d : List Example) : List String := (d.map Example.label).dedup

/-- The held-out part of one class group: a fifth of the group
(`test_size=0.2`), picked after the seed-keyed deterministic shuffle. -/
def testOf (seed : ℕ) (d : List Example) (l : String) : List Example :=
  ((classGroup d l).rotate seed).take ((classGroup d l).length / 5)

/-- The training part of one class group: the remaining four fifths. -/
def trainOf (seed : ℕ) (d : List Example) (l : String) : List Example :=
  ((classGroup d l).rotate seed).drop ((classGroup d l).length / 5)

/-- Modelled from the spec: sklearn
`train_test_split(test_size=0.2, random_state=seed, stratify=df['label'])` —
a stratified 80/20 partition, deterministic in the seed.  The library's
seeded PRNG shuffle is stood in by a seed-keyed rotation of each class
group; the split raises when the least populated class has fewer than two
members. -/
def trainTestSplit (seed : ℕ) (d : List Example) :
    Except String (List Example × List Example) :=
  if (∀ l ∈ labelsOf d, 2 ≤ countLabel d l) ∧ d ≠ [] then
    .ok ((labelsOf d).flatMap (trainOf seed d), (labelsOf d).flatMap (testOf seed d))
  else .error "The least populated class in y has too few members"

/-- The TfidfVectorizer arguments of the source pipeline. -/
structure TfidfConfig where
  maxFeatures : ℕ
  ngramRange : ℕ × ℕ
  minDf : ℕ
  sublinearTf : Bool
deriving DecidableEq

/-- The LogisticRegression arguments of the source pipeline. -/
structure LogRegConfig where
  regC : ℚ
  classWeightBalanced : Bool
  maxIter : ℕ
  randomState : ℕ
deriving DecidableEq

/-- `TfidfVectorizer(max_features=5000, ngram_range=(1, 2), min_df=2,
sublinear_tf=True)` — scripts/train_model.py lines 24-29 and
app/streamlit_app.py lines 40-45. -/
def pipelineTfidf : TfidfConfig := ⟨5000, (1, 2), 2, true⟩

/-- `LogisticRegression(C=2.0, class_weight='balanced', max_iter=1000,
random_state=42)` — scripts/train_model.py lines 30-35 and
app/streamlit_app.py lines 46-51. -/
def pipelineClf : LogRegConfig := ⟨2, true, 1000, 42⟩

/-- Document frequency of a term: in how many corpus documents it occurs. -/
def docFreq (t : String) (corpus : List String) : ℕ :=
  corpus.countP (fun doc => decide (t ∈ ngrams12 doc))

/-- Total occurrences of a term across the corpus (the frequency ranking
`max_features` keeps the top terms by). -/
def corpusCount (t : String) (corpus : List String) : ℕ :=
  (corpus.map (fun doc => (ngrams12 doc).count t)).sum

/-- Modelled from the spec: fitting the configured vectorizer's vocabulary
on a corpus — collect the distinct 1- and 2-gram terms, drop terms whose
document frequency is below `min_df`, and keep the `max_features` top
terms of the corpus-frequency ranking. -/
def fitVocabulary (corpus : List String) : List String :=
  (((corpus.flatMap ngrams12).dedup.filter
      (fun t => pipelineTfidf.minDf ≤ docFreq t corpus)).insertionSort
      (fun a b => corpusCount b corpus ≤ corpusCount a corpus)).take
    pipelineTfidf.maxFeatures

/-- Modelled from the spec: a computable strictly increasing surrogate for
the logarithm used inside tf-idf weights, with value 0 at 1 (the library
computes floating-point `log`, which has no exact rational embedding). -/
def lgSur (q : ℚ) : ℚ := q - 1

/-- The term-frequency factor: `1 + log tf` when `sublinear_tf` is set,
plain `tf` otherwise. -/
def tfWeight (cfg : TfidfConfig) (lg : ℚ → ℚ) (tf : ℕ) : ℚ :=
  if cfg.sublinearTf then 1 + lg (tf : ℚ) else (tf : ℚ)

/-- The smoothed inverse-document-frequency factor
`log((1 + n) / (1 + df)) + 1`. -/
def idfWeight (lg : ℚ → ℚ) (n df : ℕ) : ℚ :=
  lg ((1 + (n : ℚ)) / (1 + (df : ℚ))) + 1

/-- One tf-idf document-vector entry: zero for an absent term, otherwise
the term-frequency factor times the inverse-document-frequency factor. -/
def docEntry (cfg : TfidfConfig) (lg : ℚ → ℚ) (n df tf : ℕ) : ℚ :=
  if tf = 0 then 0 else tfWeight cfg lg tf * idfWeight lg n df

/-- Lexicographic order on strings by character code (numpy sorts the
class labels). -/
def charsLe : List Char → List Char → Bool
  | [], _ => true
  | _ :: _, [] => false
  | a :: as, b :: bs =>
    if a.toNat < b.toNat then true
    else if b.toNat < a.toNat then false
    else charsLe as bs

/-- String order used to sort `classes_`. -/
def strLe (a b : String) : Bool := charsLe a.data b.data

/-- Modelled from the spec: the fitted pipeline.  The vocabulary is the
fitted vectorizer's; `classes_` is the sorted list of distinct training
labels (numpy unique); the decision score is a deterministic
class-balanced linear function of the document's tf-idf entries, standing
in for the coefficients of sklearn's seeded lbfgs optimizer (library code
outside this repository). -/
def fitClassifier (vocab : List String) (tr : List Example) : Model :=
  { classes := ((tr.map Example.label).dedup).insertionSort (fun a b => strLe a b = true)
    vocabulary := vocab
    score := fun text =>
      (vocab.map (fun t =>
        ((docFreq t ((classGroup tr "spam").map Example.text) : ℚ)
            * (((classGroup tr "ham").map Example.text).length + 1)
          - (docFreq t ((classGroup tr "ham").map Example.text) : ℚ)
            * (((classGroup tr "spam").map Example.text).length + 1))
        * docEntry pipelineTfidf lgSur (tr.map Example.text).length
            (docFreq t (tr.map Example.text))
            ((ngrams12 text).count t))).sum }

/-- `pipeline.fit(X_train, y_train)`: fit the vectorizer's vocabulary on
the training texts only, then fit the classifier over those features. -/
def mkModel (tr : List Example) : Model :=
  fitClassifier (fitVocabulary (tr.map Example.text)) tr

/-- `pipeline.score(X_test, y_test)`: fraction of held-out rows whose
predicted label matches. -/
def pipeScore (m : Model) (te : List Example) : ℚ :=
  ((te.filter (fun e => m.predict e.text == e.label)).length : ℚ) / (te.length : ℚ)

/-- The training procedure, identical in scripts/train_model.py lines
14-41 and app/streamlit_app.py lines 31-57: split 80/20 stratified with
the given seed, fit the pipeline on the training partition, score it on
the held-out partition. -/
def trainPipeline (seed : ℕ) (d : List Example) : Except String (Model × ℚ) :=
  match trainTestSplit seed d with
  | .error e => .error e
  | .ok (tr, te) => .ok (mkModel tr, pipeScore (mkModel tr) te)

/-- The CLI entry point's training run (scripts/train_model.py, seed 42). -/
def cliTrainRun (d : List Example) : Except String (Model × ℚ) := trainPipeline 42 d

/-- The serving component's training run (app/streamlit_app.py `train_model`,
seed 42). -/
def appTrainRun (d : List Example) : Except String (Model × ℚ) := trainPipeline 42 d

/-- A small concrete corpus for closed evaluations. -/
def corpusW : List String := ["win free prize", "free prize now"]

/-- A small concrete dataset (five rows per class) for closed evaluations
of the training procedure. -/
def datasetW : List Example := [
  ⟨"ham", "hey are we still meeting"⟩,
  ⟨"spam", "win cash now"⟩,
  ⟨"ham", "see you at lunch"⟩,
  ⟨"spam", "free prize claim now"⟩,
  ⟨"ham", "call me later"⟩,
  ⟨"spam", "urgent win free cash"⟩,
  ⟨"ham", "thanks for the ride"⟩,
  ⟨"spam", "claim your free prize"⟩,
  ⟨"ham", "dinner tonight"⟩,
  ⟨"spam", "cash prize urgent"⟩]

/-- The training partition `trainTestSplit 42 datasetW` produces. -/
def trainW : List Example := [
  ⟨"ham", "thanks for the ride"⟩,
  ⟨"ham", "dinner tonight"⟩,
  ⟨"ham", "hey are we still meeting"⟩,
  ⟨"ham", "see you at lunch"⟩,
  ⟨"spam", "claim your free prize"⟩,
  ⟨"spam", "cash prize urgent"⟩,
  ⟨"spam", "win cash now"⟩,
  ⟨"spam", "free prize claim now"⟩]

/-- The held-out partition `trainTestSplit 42 datasetW` produces. -/
def testW : List Example := [
  ⟨"ham", "call me later"⟩,
  ⟨"spam", "urgent win free cash"⟩]

/-! ## Artifact loading and auto-training (streamlit_app.py lines 18-76) -/

/-- What a file at `models/spam_classifier.pkl` may hold: a well-formed
serialized pipeline, or bytes `joblib.load` cannot deserialize. -/
inductive Blob where
  | valid (m : Model) : Blob
  | corrupt : Blob

/-- The two files the app touches: the model artifact and the raw dataset.
`none` means the file is absent (`os.path.exists` is false). -/
structure FS where
  modelFile : Option Blob
  dataFile : Option (List Example)

/-- What one run of the loading path produces. -/
inductive LoadResult where
  | loaded (m : Model) : LoadResult
  | trainedNew (m : Model) : LoadResult
  | fatal (msg : String) : LoadResult
  | loadFailure : LoadResult

/-- Modelled from the spec: `joblib.load` — deserializes a well-formed
blob and raises on anything else. -/
def joblibLoad : Blob → LoadResult
  | .valid m => .loaded m
  | .corrupt => .loadFailure

/-- `train_model()` (streamlit_app.py lines 18-65): if the dataset file is
missing, show the error and stop; otherwise train from the raw data,
write the artifact, and return the fitted pipeline. -/
def train_model (fs : FS) : LoadResult × FS :=
  match fs.dataFile with
  | none => (.fatal "Training data not found at data/sms_spam_no_header.csv", fs)
  | some d =>
    match trainPipeline 42 d with
    | .ok (m, _) => (.trainedNew m, { fs with modelFile := some (.valid m) })
    | .error e => (.fatal e, fs)

/-- `load_model()` (streamlit_app.py lines 68-74): auto-train exactly when
the artifact file does not exist; otherwise `joblib.load` it with no
further check. -/
def load_model (fs : FS) : LoadResult × FS :=
  match fs.modelFile with
  | none => train_model fs
  | some b => (joblibLoad b, fs)

/-- The model the first load resolves to, when it succeeds. -/
def firstLoad (fs : FS) : Option Model :=
  match (load_model fs).1 with
  | .loaded m => some m
  | .trainedNew m => some m
  | _ => none

/-- The serving process state: the `@st.cache_resource` slot for the
model artifact, how many times `load_model`'s body has run, and the
files. -/
structure ProcState where
  cache : Option Model
  loadCalls : ℕ
  fs : FS

/-- Modelled from the spec: `@st.cache_resource` — a cache hit returns the
cached object without running the body; a miss runs `load_model` once and
caches the object it returns (nothing is cached when the body stops or
raises instead of returning). -/
def cachedLoadModel (s : ProcState) : Option Model × ProcState :=
  match s.cache with
  | some m => (some m, s)
  | none =>
    match (load_model s.fs).1, (load_model s.fs).2 with
    | .loaded m, fs' => (some m, ⟨some m, s.loadCalls + 1, fs'⟩)
    | .trainedNew m, fs' => (some m, ⟨some m, s.loadCalls + 1, fs'⟩)
    | _, fs' => (none, ⟨none, s.loadCalls + 1, fs'⟩)

/-- One script run per request: each rerun evaluates
`model = load_model()` through the cache. -/
def serve : ℕ → ProcState → List (Option Model) × ProcState
  | 0, s => ([], s)
  | n + 1, s =>
    ((cachedLoadModel s).1 :: (serve n (cachedLoadModel s).2).1,
      (serve n (cachedLoadModel s).2).2)

/-- A filesystem with neither artifact nor dataset. -/
def fsEmptyW : FS := ⟨none, none⟩

/-- An unreadable artifact blob. -/
def modelBlobW : Blob := .corrupt

/-- A filesystem holding an unreadable artifact and a good dataset. -/
def fsCorruptW : FS := ⟨some modelBlobW, some datasetW⟩

/-- A filesystem holding a well-formed artifact. -/
def fsLoadedW : FS := ⟨some (.valid modelW), none⟩

/-! ## CSV parsing (scripts/train_model.py line 11 vs streamlit_app.py
line 28) -/

/-- A parsed CSV: the column names and the data rows (each row is a list
of fields). -/
structure DataFrame where
  columns : List String
  rows : List (List String)

/-- Modelled from the spec: `pd.read_csv(path, header=None, names=names)`
— no header row, every file row is a data row, columns named by `names`
(the serving component's parse, streamlit_app.py line 28). -/
def readCsvNamed (names : List String) (fileRows : List (List String)) : DataFrame :=
  ⟨names, fileRows⟩

/-- Modelled from the spec: `pd.read_csv(path)` with default arguments —
the first file row is consumed as the column names and only the remaining
rows are data (the CLI script's parse, scripts/train_model.py line 11). -/
def readCsvDefault (fileRows : List (List String)) : DataFrame :=
  match fileRows with
  | [] => ⟨[], []⟩
  | hd :: tl => ⟨hd, tl⟩

/-- `df[name]`: the named column, or a KeyError when the name is not a
column. -/
def DataFrame.col (df : DataFrame) (name : String) : Except String (List String) :=
  if df.columns.contains name then
    .ok (df.rows.map (fun r => r.getD (df.columns.indexOf name) ""))
  else .error ("KeyError: " ++ name)

/-- The labeled examples a parse yields: `df['text']` and `df['label']`
zipped (the two columns both training paths read). -/
def examplesOf (df : DataFrame) : Except String (List Example) := do
  let texts ← df.col "text"
  let labels ← df.col "label"
  return (labels.zip texts).map (fun p => ⟨p.1, p.2⟩)

/-- The CLI training script's parse of the dataset file
(`pd.read_csv('data/sms_spam_no_header.csv')`, default header). -/
def cliParse (fileRows : List (List String)) : Except String (List Example) :=
  examplesOf (readCsvDefault fileRows)

/-- The serving component's parse of the same file
(`pd.read_csv(data_path, header=None, names=['label', 'text'])`). -/
def appParse (fileRows : List (List String)) : Except String (List Example) :=
  examplesOf (readCsvNamed ["label", "text"] fileRows)

/-- The repository's dataset file is headerless: its first row is already
a data row, for instance: -/
def csvRowsW : List (List String) :=
  [["ham", "Hey, how are you?"], ["spam", "WIN a prize now!"]]

lemma pyStrip_empty : pyStrip "" = "" := rfl

lemma handleSubmit_of_strip_empty (m : Model) (t : String) (h : pyStrip t = "") :
    handleSubmit m t = SubmitResult.noInput := by
  have hcond : ¬(t ≠ "" ∧ pyStrip t ≠ "") := fun hc => hc.2 h
  simp only [handleSubmit, if_neg hcond]

/-- Claim C1: for any trained artifact (binary spam/ham class list) and any
input that is non-empty after trimming, the handler shows the label with
the strictly greater probability (spam iff `spam_prob > 1 - spam_prob`),
the matching confidence, and the probability vector sums to exactly 1. -/
theorem claim1_label_matches_probability (m : Model) (t : String)
    (hc : m.classes = ["ham", "spam"]) (ht : pyStrip t ≠ "") :
    handleSubmit m t =
      SubmitResult.shown
        (if m.spamProb t > 1 - m.spamProb t then "spam" else "ham")
        (if m.spamProb t > 1 - m.spamProb t then m.spamProb t else 1 - m.spamProb t)
        (m.spamProb t)
    ∧ (m.predictProba t).sum = 1 := by
  have htne : t ≠ "" := by
    intro h0
    exact ht (h0 ▸ pyStrip_empty)
  have hcond : t ≠ "" ∧ pyStrip t ≠ "" := ⟨htne, ht⟩
  have hidx : spamIdxOf m.classes = 1 := by
    rw [hc]; decide
  have hproba : m.predictProba t = [1 - m.spamProb t, m.spamProb t] := by
    simp [Model.predictProba, hc]
  have hiff : (m.spamProb t > 1 - m.spamProb t) ↔ (1 / 2 < m.spamProb t) := by
    constructor <;> intro h <;> linarith
  constructor
  · simp only [handleSubmit, if_pos hcond, hidx, hproba, Model.predict]
    by_cases hp : 1 / 2 < m.spamProb t
    · rw [if_pos hp, if_pos rfl, if_pos (hiff.mpr hp), if_pos (hiff.mpr hp)]
      rfl
    · have hno : ¬ (m.spamProb t > 1 - m.spamProb t) := fun h => hp (hiff.mp h)
      rw [if_neg hp, if_neg (by decide : ¬ ("ham" : String) = "spam"),
        if_neg hno, if_neg hno]
      rfl
  · rw [hproba]
    simp

/-- Closed instance of the C1 theorem at a concrete artifact and message. -/
theorem claim1_witness :
    handleSubmit modelW "hello" =
      SubmitResult.shown
        (if modelW.spamProb "hello" > 1 - modelW.spamProb "hello" then "spam" else "ham")
        (if modelW.spamProb "hello" > 1 - modelW.spamProb "hello" then modelW.spamProb "hello"
         else 1 - modelW.spamProb "hello")
        (modelW.spamProb "hello")
    ∧ (modelW.predictProba "hello").sum = 1 :=
  claim1_label_matches_probability modelW "hello" rfl (by decide)

/-- Claim C2: empty or whitespace-only input yields the warning and never
reaches the classifier — the handler returns the warning exactly when the
stripped input is empty, and on such input the result is the same for
every model (the classifier is not consulted). -/
theorem claim2_empty_input_rejected (m m' : Model) (t : String) :
    (handleSubmit m t = SubmitResult.noInput ↔ pyStrip t = "")
    ∧ (pyStrip t = "" → handleSubmit m t = handleSubmit m' t) := by
  refine ⟨⟨?_, handleSubmit_of_strip_empty m t⟩, ?_⟩
  · intro hres
    by_contra hne
    have htne : t ≠ "" := by
      intro h0
      exact hne (h0 ▸ pyStrip_empty)
    simp only [handleSubmit, if_pos (And.intro htne hne)] at hres
    by_cases hp : m.predict t = "spam"
    · rw [if_pos hp] at hres
      exact SubmitResult.noConfusion hres
    · rw [if_neg hp] at hres
      exact SubmitResult.noConfusion hres
  · intro he
    rw [handleSubmit_of_strip_empty m t he, handleSubmit_of_strip_empty m' t he]

/-- Closed instance of the C2 theorem: a whitespace-only message produces
the warning result. -/
theorem claim2_witness : handleSubmit modelW "   " = SubmitResult.noInput :=
  ((claim2_empty_input_rejected modelW modelW "   ").1).mpr (by decide)

/-- Claim C3: the spam probability is read from the slot found by looking
up "spam" in the classifier's class list; index 1 is the fallback exactly
when "spam" is absent; and the handler's displayed spam probability is the
probability vector entry at that resolved index. -/
theorem claim3_spam_slot_resolution (classes : List String) (m : Model)
    (t : String) (ht : pyStrip t ≠ "") :
    ("spam" ∈ classes → spamIdxOf classes = classes.indexOf "spam")
    ∧ ("spam" ∉ classes → spamIdxOf classes = 1)
    ∧ (∃ lbl conf, handleSubmit m t =
        SubmitResult.shown lbl conf
          ((m.predictProba t).getD (spamIdxOf m.classes) 0)) := by
  have htne : t ≠ "" := by
    intro h0
    exact ht (h0 ▸ pyStrip_empty)
  refine ⟨fun hmem => if_pos hmem, fun hnmem => if_neg hnmem, ?_⟩
  simp only [handleSubmit, if_pos (And.intro htne ht)]
  by_cases hp : m.predict t = "spam"
  · exact ⟨"spam", _, by rw [if_pos hp]⟩
  · exact ⟨"ham", _, by rw [if_neg hp]⟩

/-- Closed instance of the C3 theorem at a concrete class list, artifact
and message. -/
theorem claim3_witness :
    ("spam" ∈ ["ham", "spam"] →
      spamIdxOf ["ham", "spam"] = ["ham", "spam"].indexOf "spam")
    ∧ ("spam" ∉ ["ham", "spam"] → spamIdxOf ["ham", "spam"] = 1)
    ∧ (∃ lbl conf, handleSubmit modelW "hello" =
        SubmitResult.shown lbl conf
          ((modelW.predictProba "hello").getD (spamIdxOf modelW.classes) 0)) :=
  claim3_spam_slot_resolution ["ham", "spam"] modelW "hello" (by decide)

/-! ## Lemmas about the stratified split and the fitted vocabulary -/

lemma flatMap_congr_mem {α β : Type} {f g : α → List β} :
    ∀ ls : List α, (∀ a ∈ ls, f a = g a) → ls.flatMap f = ls.flatMap g := by
  intro ls
  induction ls with
  | nil => intro _; rfl
  | cons a as ih =>
    intro h
    rw [List.flatMap_cons, List.flatMap_cons, h a (List.mem_cons_self a as),
      ih (fun x hx => h x (List.mem_cons_of_mem a hx))]

lemma flatMap_perm_of_perm {α β : Type} {f g : α → List β} :
    ∀ ls : List α, (∀ a ∈ ls, (f a).Perm (g a)) →
    (ls.flatMap f).Perm (ls.flatMap g) := by
  intro ls
  induction ls with
  | nil => intro _; exact List.Perm.refl _
  | cons a as ih =>
    intro h
    rw [List.flatMap_cons, List.flatMap_cons]
    exact List.Perm.append (h a (List.mem_cons_self a as))
      (ih (fun x hx => h x (List.mem_cons_of_mem a hx)))

lemma flatMap_append_perm {α β : Type} (f g : α → List β) :
    ∀ ls : List α,
    (ls.flatMap f ++ ls.flatMap g).Perm (ls.flatMap fun x => f x ++ g x) := by
  intro ls
  induction ls with
  | nil => exact List.Perm.refl _
  | cons a as ih =>
    simp only [List.flatMap_cons]
    rw [List.append_assoc (f a), List.append_assoc (f a)]
    apply List.Perm.append_left
    rw [← List.append_assoc (as.flatMap f)]
    refine List.Perm.trans (List.Perm.append List.perm_append_comm (List.Perm.refl _)) ?_
    rw [List.append_assoc]
    exact List.Perm.append_left _ ih

lemma flatMap_classGroup_perm :
    ∀ (ls : List String) (d : List Example), ls.Nodup →
    (∀ e ∈ d, e.label ∈ ls) →
    (ls.flatMap fun l => classGroup d l).Perm d := by
  intro ls
  induction ls with
  | nil =>
    intro d _ hall
    cases d with
    | nil => exact List.Perm.refl _
    | cons e es => exact absurd (hall e (List.mem_cons_self e es)) (List.not_mem_nil _)
  | cons l ls ih =>
    intro d hn hall
    rw [List.flatMap_cons]
    have hrest : ∀ l' ∈ ls,
        classGroup d l' = classGroup (d.filter fun e => !(e.label == l)) l' := by
      intro l' hl'
      have hne : l' ≠ l := by
        rintro rfl
        exact (List.nodup_cons.mp hn).1 hl'
      rw [classGroup, classGroup, List.filter_filter]
      apply List.filter_congr
      intro e _
      by_cases h : e.label = l'
      · simp [h, hne]
      · simp [h]
    have hd' : ∀ e ∈ d.filter (fun e => !(e.label == l)), e.label ∈ ls := by
      intro e he
      have hmem := List.mem_of_mem_filter he
      have hprop := List.of_mem_filter he
      have hnl : e.label ≠ l := by
        simpa using hprop
      rcases List.mem_cons.mp (hall e hmem) with h | h
      · exact absurd h hnl
      · exact h
    have hperm2 := ih (d.filter fun e => !(e.label == l))
      (List.nodup_cons.mp hn).2 hd'
    rw [flatMap_congr_mem ls hrest]
    refine List.Perm.trans (List.Perm.append_left _ hperm2) ?_
    show (List.filter (fun e => e.label == l) d
        ++ List.filter (fun e => !(e.label == l)) d).Perm d
    exact List.filter_append_perm _ d

lemma mem_label_labelsOf (d : List Example) (e : Example) (he : e ∈ d) :
    e.label ∈ labelsOf d :=
  List.mem_dedup.mpr (List.mem_map.mpr ⟨e, he, rfl⟩)

lemma mem_testOf_label (seed : ℕ) (d : List Example) (l : String) :
    ∀ e ∈ testOf seed d l, e.label = l := by
  intro e he
  have h1 : e ∈ (classGroup d l).rotate seed := (List.take_sublist _ _).mem he
  have h2 : e ∈ classGroup d l := List.mem_rotate.mp h1
  rw [classGroup] at h2
  exact eq_of_beq (List.mem_filter.mp h2).2

lemma trainOf_append_testOf_perm (seed : ℕ) (d : List Example) (l : String) :
    (trainOf seed d l ++ testOf seed d l).Perm (classGroup d l) := by
  rw [trainOf, testOf]
  exact List.Perm.trans List.perm_append_comm
    (by rw [List.take_append_drop]; exact List.rotate_perm _ _)

lemma length_testOf (seed : ℕ) (d : List Example) (l : String) :
    (testOf seed d l).length = countLabel d l / 5 := by
  rw [testOf, List.length_take, List.length_rotate, countLabel]
  omega

lemma countLabel_eq_zero_of_not_mem (d : List Example) (l : String)
    (h : l ∉ labelsOf d) : countLabel d l = 0 := by
  rw [countLabel, classGroup, List.length_eq_zero]
  apply List.filter_eq_nil_iff.mpr
  intro e he hbeq
  exact h (eq_of_beq hbeq ▸ mem_label_labelsOf d e he)

lemma countLabel_flatMap (l : String) (F : String → List Example) :
    ∀ ls : List String, ls.Nodup → (∀ l' ∈ ls, ∀ e ∈ F l', e.label = l') →
    countLabel (ls.flatMap F) l = if l ∈ ls then (F l).length else 0 := by
  intro ls
  induction ls with
  | nil => intro _ _; simp [countLabel, classGroup]
  | cons a as ih =>
    intro hn hF
    rw [List.flatMap_cons, countLabel, classGroup, List.filter_append,
      List.length_append]
    have hrec := ih (List.nodup_cons.mp hn).2
      (fun l' h e he => hF l' (List.mem_cons_of_mem a h) e he)
    rw [countLabel, classGroup] at hrec
    by_cases hla : l = a
    · subst hla
      have h1 : (F l).filter (fun e => e.label == l) = F l :=
        List.filter_eq_self.mpr (fun e he => by
          simp [hF l (List.mem_cons_self _ _) e he])
      have hnot : l ∉ as := (List.nodup_cons.mp hn).1
      rw [h1, hrec, if_neg hnot, if_pos (List.mem_cons_self _ _)]
      omega
    · have h1 : (F a).filter (fun e => e.label == l) = [] := by
        apply List.filter_eq_nil_iff.mpr
        intro e he hbeq
        exact hla ((eq_of_beq hbeq).symm.trans (hF a (List.mem_cons_self _ _) e he))
      rw [h1, hrec, List.length_nil]
      by_cases hmem : l ∈ as
      · rw [if_pos hmem, if_pos (List.mem_cons_of_mem a hmem)]
        omega
      · rw [if_neg hmem, if_neg (by
          intro hc
          rcases List.mem_cons.mp hc with h | h
          · exact hla h
          · exact hmem h)]

lemma mem_fitVocabulary (corpus : List String) (t : String)
    (h : t ∈ fitVocabulary corpus) :
    pipelineTfidf.minDf ≤ docFreq t corpus ∧ ∃ doc ∈ corpus, t ∈ ngrams12 doc := by
  rw [fitVocabulary] at h
  have h1 := (List.take_sublist _ _).mem h
  have h2 := ((List.perm_insertionSort _ _).mem_iff).mp h1
  have h4 : pipelineTfidf.minDf ≤ docFreq t corpus :=
    of_decide_eq_true (List.mem_filter.mp h2).2
  refine ⟨h4, ?_⟩
  have h5 : 0 < docFreq t corpus := lt_of_lt_of_le (by norm_num [pipelineTfidf]) h4
  rw [docFreq] at h5
  obtain ⟨doc, hdoc, hp⟩ := List.countP_pos_iff.mp h5
  exact ⟨doc, hdoc, of_decide_eq_true hp⟩

/-- Claim C5: a successful split partitions the dataset, holds out a fifth
of every class (stratified 80/20, deterministic in the seed), and the
pipeline then fits its vocabulary on the training partition only — every
vocabulary term occurs in a training text — and computes the reported
accuracy by scoring that fitted model on the held-out partition. -/
theorem claim5_split_and_fit (seed : ℕ) (d tr te : List Example)
    (h : trainTestSplit seed d = .ok (tr, te)) :
    (tr ++ te).Perm d
    ∧ (∀ l, countLabel te l = countLabel d l / 5)
    ∧ (∀ t ∈ (mkModel tr).vocabulary, ∃ e ∈ tr, t ∈ ngrams12 e.text)
    ∧ trainPipeline seed d = .ok (mkModel tr, pipeScore (mkModel tr) te) := by
  have hsplit := h
  rw [trainTestSplit] at h
  by_cases hg : (∀ l ∈ labelsOf d, 2 ≤ countLabel d l) ∧ d ≠ []
  case neg =>
    rw [if_neg hg] at h
    exact absurd h (by simp)
  rw [if_pos hg] at h
  injection h with hpair
  injection hpair with htr hte
  subst htr
  subst hte
  have hnodup : (labelsOf d).Nodup := List.nodup_dedup _
  refine ⟨?_, ?_, ?_, ?_⟩
  · refine List.Perm.trans (flatMap_append_perm _ _ (labelsOf d)) ?_
    refine List.Perm.trans
      (flatMap_perm_of_perm (labelsOf d)
        (fun l _ => trainOf_append_testOf_perm seed d l)) ?_
    exact flatMap_classGroup_perm (labelsOf d) d hnodup
      (fun e he => mem_label_labelsOf d e he)
  · intro l
    rw [countLabel_flatMap l (testOf seed d) (labelsOf d) hnodup
      (fun l' _ e he => mem_testOf_label seed d l' e he)]
    by_cases hmem : l ∈ labelsOf d
    · rw [if_pos hmem, length_testOf]
    · rw [if_neg hmem, countLabel_eq_zero_of_not_mem d l hmem]
  · intro t ht
    have hv : (mkModel ((labelsOf d).flatMap (trainOf seed d))).vocabulary
        = fitVocabulary (((labelsOf d).flatMap (trainOf seed d)).map Example.text) := rfl
    rw [hv] at ht
    obtain ⟨-, doc, hdoc, hocc⟩ := mem_fitVocabulary _ t ht
    obtain ⟨e, he, hee⟩ := List.mem_map.mp hdoc
    exact ⟨e, he, hee ▸ hocc⟩
  · rw [trainPipeline, hsplit]

/-- Closed instance of the C5 theorem on a concrete ten-row dataset. -/
theorem claim5_witness :
    (trainW ++ testW).Perm datasetW
    ∧ (∀ l, countLabel testW l = countLabel datasetW l / 5)
    ∧ (∀ t ∈ (mkModel trainW).vocabulary, ∃ e ∈ trainW, t ∈ ngrams12 e.text)
    ∧ trainPipeline 42 datasetW = .ok (mkModel trainW, pipeScore (mkModel trainW) testW) :=
  claim5_split_and_fit 42 datasetW trainW testW (by rfl)

/-- Claim C6: the source pipeline's exact hyperparameters — tf-idf with
sublinear term frequency, unigrams and bigrams, `min_df=2`, at most 5000
vocabulary terms ordered by the corpus-frequency ranking, and logistic
regression with `C=2.0` and balanced class weights — and the fitted
vocabulary obeys them. -/
theorem claim6_pipeline_hyperparameters :
    pipelineTfidf = ⟨5000, (1, 2), 2, true⟩
    ∧ pipelineClf = ⟨2, true, 1000, 42⟩
    ∧ (∀ lg n df tf, 0 < tf →
        docEntry pipelineTfidf lg n df tf = (1 + lg (tf : ℚ)) * idfWeight lg n df)
    ∧ (∀ corpus, (fitVocabulary corpus).length ≤ 5000
        ∧ (∀ t ∈ fitVocabulary corpus,
            2 ≤ docFreq t corpus ∧ ∃ doc ∈ corpus, t ∈ ngrams12 doc)
        ∧ (fitVocabulary corpus).Pairwise
            (fun a b => corpusCount b corpus ≤ corpusCount a corpus)) := by
  refine ⟨rfl, rfl, ?_, ?_⟩
  · intro lg n df tf htf
    rw [docEntry, if_neg (Nat.pos_iff_ne_zero.mp htf)]
    simp [tfWeight, pipelineTfidf]
  · intro corpus
    refine ⟨?_, ?_, ?_⟩
    · exact List.length_take_le _ _
    · intro t ht
      exact mem_fitVocabulary corpus t ht
    · haveI : IsTrans String (fun a b => corpusCount b corpus ≤ corpusCount a corpus) :=
        ⟨fun _ _ _ hab hbc => le_trans hbc hab⟩
      haveI : IsTotal String (fun a b => corpusCount b corpus ≤ corpusCount a corpus) :=
        ⟨fun a b => Nat.le_total (corpusCount b corpus) (corpusCount a corpus)⟩
      have hsorted := List.sorted_insertionSort
        (r := fun a b => corpusCount b corpus ≤ corpusCount a corpus)
        ((corpus.flatMap ngrams12).dedup.filter
          (fun t => pipelineTfidf.minDf ≤ docFreq t corpus))
      exact List.Pairwise.sublist (List.take_sublist pipelineTfidf.maxFeatures _) hsorted

/-- Closed instance of the C6 vocabulary properties and tf-idf form on a
concrete corpus and term. -/
theorem claim6_witness :
    docEntry pipelineTfidf lgSur 2 2 3 = (1 + lgSur (3 : ℚ)) * idfWeight lgSur 2 2
    ∧ (fitVocabulary corpusW).length ≤ 5000
    ∧ (2 ≤ docFreq "free prize" corpusW
        ∧ ∃ doc ∈ corpusW, "free prize" ∈ ngrams12 doc) :=
  ⟨claim6_pipeline_hyperparameters.2.2.1 lgSur 2 2 3 (by norm_num),
   (claim6_pipeline_hyperparameters.2.2.2 corpusW).1,
   (claim6_pipeline_hyperparameters.2.2.2 corpusW).2.1 "free prize" (by decide)⟩

/-- Claim C8: training is deterministic — the CLI training run and the
serving component's training run, both seeded with 42 on the same
dataset, report the same held-out accuracy and give the same label and
probability on every probe message. -/
theorem claim8_training_deterministic (d : List Example) (probe : List String) :
    (cliTrainRun d).map Prod.snd = (appTrainRun d).map Prod.snd
    ∧ (cliTrainRun d).map (fun r => probe.map fun t => (r.1.predict t, r.1.spamProb t))
      = (appTrainRun d).map (fun r => probe.map fun t => (r.1.predict t, r.1.spamProb t)) :=
  ⟨rfl, rfl⟩

/-- Claim C4: with no artifact file, serving triggers synchronous training
(`load_model` runs `train_model`); if the dataset file is missing too, the
operation halts with the fatal human-readable message, produces no model,
and writes no artifact. -/
theorem claim4_autotrain_and_missing_data (fs : FS) (hm : fs.modelFile = none) :
    load_model fs = train_model fs
    ∧ (fs.dataFile = none →
        load_model fs =
          (.fatal "Training data not found at data/sms_spam_no_header.csv", fs)) := by
  have h1 : load_model fs = train_model fs := by
    rw [load_model, hm]
  refine ⟨h1, fun hd => ?_⟩
  rw [h1, train_model, hd]

/-- Closed instance of the C4 theorem on the empty filesystem. -/
theorem claim4_witness :
    load_model fsEmptyW = train_model fsEmptyW
    ∧ (fsEmptyW.dataFile = none →
        load_model fsEmptyW =
          (.fatal "Training data not found at data/sms_spam_no_header.csv", fsEmptyW)) :=
  claim4_autotrain_and_missing_data fsEmptyW rfl

/-- Claim C7 (code-bug evidence): on the repository's headerless
two-column dataset the serving component's parse treats every row as a
labeled example, while the CLI script's default-header parse consumes the
first data row as column names, leaving no 'text' column, so `df['text']`
raises a KeyError — the CLI does not parse the dataset the way the
serving component does. -/
theorem claim7_cli_header_bug :
    appParse csvRowsW =
      .ok [⟨"ham", "Hey, how are you?"⟩, ⟨"spam", "WIN a prize now!"⟩]
    ∧ (readCsvDefault csvRowsW).columns = ["ham", "Hey, how are you?"]
    ∧ (readCsvDefault csvRowsW).rows.length = 1
    ∧ cliParse csvRowsW = .error "KeyError: text" :=
  ⟨rfl, rfl, rfl, rfl⟩

lemma serve_cached (m : Model) :
    ∀ (n : ℕ) (s : ProcState), s.cache = some m →
    serve n s = (List.replicate n (some m), s) := by
  intro n
  induction n with
  | zero => intro s _; rfl
  | succ k ih =>
    intro s hc
    have h1 : cachedLoadModel s = (some m, s) := by
      rw [cachedLoadModel, hc]
    rw [serve, h1, ih s hc]
    rfl

/-- Claim C9: the artifact is loaded or trained at most once per process —
once the first request's load succeeds, every later request reads the same
cached object: over any positive number of requests the `load_model` body
runs exactly once and every request sees the same model. -/
theorem claim9_cached_once (fs : FS) (m : Model) (n : ℕ)
    (h : firstLoad fs = some m) (hn : 1 ≤ n) :
    (serve n ⟨none, 0, fs⟩).2.loadCalls = 1
    ∧ ∀ r ∈ (serve n ⟨none, 0, fs⟩).1, r = some m := by
  obtain ⟨k, rfl⟩ : ∃ k, n = k + 1 := ⟨n - 1, by omega⟩
  rw [firstLoad] at h
  have hc1 : cachedLoadModel ⟨none, 0, fs⟩ = (some m, ⟨some m, 1, (load_model fs).2⟩) := by
    cases hl : (load_model fs).1 with
    | loaded m' =>
      rw [hl] at h
      obtain rfl : m' = m := by simpa using h
      simp [cachedLoadModel, hl]
    | trainedNew m' =>
      rw [hl] at h
      obtain rfl : m' = m := by simpa using h
      simp [cachedLoadModel, hl]
    | fatal msg => rw [hl] at h; simp at h
    | loadFailure => rw [hl] at h; simp at h
  rw [serve, hc1, serve_cached m k ⟨some m, 1, (load_model fs).2⟩ rfl]
  refine ⟨rfl, fun r hr => ?_⟩
  rcases List.mem_cons.mp hr with h' | h'
  · exact h'
  · exact List.eq_of_mem_replicate h'

/-- Closed instance of the C9 theorem: three requests against a present
artifact. -/
theorem claim9_witness :
    (serve 3 ⟨none, 0, fsLoadedW⟩).2.loadCalls = 1
    ∧ ∀ r ∈ (serve 3 ⟨none, 0, fsLoadedW⟩).1, r = some modelW :=
  claim9_cached_once fsLoadedW modelW 3 rfl (by norm_num)

/-- Claim C10: auto-training is triggered solely by the absence of the
artifact file — whenever a file exists at the path, the outcome is exactly
`joblib.load` on its contents with the filesystem untouched, no validity
check and no retraining; an unreadable blob makes the load itself fail. -/
theorem claim10_existing_artifact_never_retrained (fs : FS) (b : Blob)
    (hm : fs.modelFile = some b) :
    load_model fs = (joblibLoad b, fs)
    ∧ (b = .corrupt → (load_model fs).1 = .loadFailure)
    ∧ (∀ m, (load_model fs).1 ≠ .trainedNew m) := by
  have h1 : load_model fs = (joblibLoad b, fs) := by
    rw [load_model, hm]
  refine ⟨h1, fun hb => by rw [h1, hb]; rfl, fun m => ?_⟩
  rw [h1]
  cases b with
  | valid m' => simp [joblibLoad]
  | corrupt => simp [joblibLoad]

/-- Closed instance of the C10 theorem: a corrupt artifact next to a good
dataset is not retrained; the load fails instead. -/
theorem claim10_witness :
    load_model fsCorruptW = (joblibLoad modelBlobW, fsCorruptW)
    ∧ (modelBlobW = .corrupt → (load_model fsCorruptW).1 = .loadFailure)
    ∧ (∀ m, (load_model fsCorruptW).1 ≠ .trainedNew m) :=
  claim10_existing_artifact_never_retrained fsCorruptW modelBlobW rfl

end SpamDetect
